import Mathlib

/-!
Verification development for the epubParser repository.

The repository contains several near-duplicate implementations of an EPUB
chapter/title extraction engine:
  * `EpubExtractor.js`        — original variant (no titles),
  * `EpubExtractor1.2.js`     — full variant: OPF parsing, NCX title matching
                                 by path, XHTML heuristic fallback,
  * `part_000` (condensed)    — a golfed rewrite of the 1.2 variant,
  * `part_001`                — variant reading manifest `title` attributes,
  * `part_002`                — userscript plus an order-matching NCX variant.

Below, the data model and the operations of these programs are shallowly
embedded in Lean.  The external collaborators (zip archive reader, DOM
parser) are modelled by their observable outputs: an archive maps entry
paths to entries, and an entry carries the parsed views the code queries
(flat element list for `querySelector`, raw navigation points for the NCX
XPath extraction, element list of the HTML view, raw bytes).
-/

namespace Epub

/-! ### Character-list utilities

JavaScript string primitives used by the source (`split`, `filter(Boolean)`,
`join`, `replace(/\s+/g,' ')`, `trim`, `substring`, `lastIndexOf`) are
modelled over `List Char` with structurally recursive functions so that all
definitions evaluate by kernel reduction. -/

/-- Split a character list at every character satisfying `p`
(the separators are dropped; empty pieces are kept, as with JS `split`). -/
def splitOnPred (p : Char → Bool) : List Char → List (List Char)
  | [] => [[]]
  | c :: cs =>
    match splitOnPred p cs with
    | [] => [[]]
    | s :: ss => if p c then [] :: s :: ss else (c :: s) :: ss

/-- The non-empty pieces between separators: JS
`str.split(sep).filter(part => part)`. -/
def tokens (p : Char → Bool) (l : List Char) : List (List Char) :=
  (splitOnPred p l).filter (fun s => s ≠ [])

/-- JS whitespace class `\s` (modelled on the ASCII whitespace characters,
which is what `Char.isWhitespace` decides). -/
def isWs (c : Char) : Bool := c.isWhitespace

/-- `text.replace(/\s+/g, ' ').trim()` — collapse whitespace runs to single
spaces and trim the ends: equivalently, join the whitespace-separated
tokens with single spaces. -/
def normalizeWs (s : String) : String :=
  ⟨List.intercalate [' '] (tokens isWs s.data)⟩

/-- Does the first list occur at the head of the second? -/
def leadsWith : List Char → List Char → Bool
  | [], _ => true
  | _ :: _, [] => false
  | a :: as, b :: bs => a = b && leadsWith as bs

/-- Substring test (used for the CSS attribute selector `[class*=...]`). -/
def hasSubstr (needle : List Char) : List Char → Bool
  | [] => needle.isEmpty
  | c :: t => leadsWith needle (c :: t) || hasSubstr needle t

/-- JS `String.prototype.trim` (both ends, whitespace). -/
def trimWs (s : String) : String :=
  ⟨((s.data.dropWhile isWs).reverse.dropWhile isWs).reverse⟩

/-! ### Path resolver

`resolvePath(basePath, relativePath)` appears verbatim in
`EpubExtractor.js` (lines 162-183), `EpubExtractor1.2.js` (lines 240-252),
`part_001` (lines 159-178) and `part_002` (lines 467-482):

```js
resolvePath(basePath, relativePath) {
  if (relativePath.startsWith('/')) return relativePath.substring(1);
  const baseParts = basePath.split('/').filter(part => part);
  const relativeParts = relativePath.split('/').filter(part => part);
  for (let i = 0; i < relativeParts.length; i++) {
    if (relativeParts[i] === '..') {
      if (baseParts.length > 0) baseParts.pop();
    } else {
      baseParts.push(relativeParts[i]);
    }
  }
  return baseParts.join('/');
}
```
-/

/-- The segment list `".."`. -/
def dotdot : List Char := ['.', '.']

/-- One step of the `resolvePath` loop: `'..'` pops the last base segment
(no-op on an empty base), anything else is appended. -/
def resolveStep (bp : List (List Char)) (seg : List Char) : List (List Char) :=
  if seg = dotdot then bp.dropLast else bp ++ [seg]

/-- Non-empty `/`-separated segments: `str.split('/').filter(part => part)`. -/
def pathSegs (s : String) : List (List Char) :=
  tokens (fun c => c = '/') s.data

/-- `baseParts.join('/')`. -/
def joinSegs (segs : List (List Char)) : String :=
  ⟨List.intercalate ['/'] segs⟩

/-- `EpubExtractor.resolvePath` (all non-condensed variants). -/
def resolvePath (basePath relativePath : String) : String :=
  match relativePath.data with
  | '/' :: rest => ⟨rest⟩
  | _ => joinSegs ((pathSegs relativePath).foldl resolveStep (pathSegs basePath))

/-- One step of the loop of `EpubExtractor.s` in the condensed variant
(`part_000`, lines 120-125):
`r.split('/').filter(Boolean).forEach(p => p === '..' && bp.length ? bp.pop() : bp.push(p));`
— by `&&`/`?:` precedence this pops only when the segment is `'..'` AND the
base is non-empty, and otherwise PUSHES the segment, so a `'..'` hitting an
empty base is appended literally instead of being a no-op. -/
def sStep (bp : List (List Char)) (seg : List Char) : List (List Char) :=
  if seg = dotdot ∧ bp ≠ [] then bp.dropLast else bp ++ [seg]

/-- `EpubExtractor.s` — the path resolver of the condensed variant. -/
def sResolve (basePath relativePath : String) : String :=
  match relativePath.data with
  | '/' :: rest => ⟨rest⟩
  | _ => joinSegs ((pathSegs relativePath).foldl sStep (pathSegs basePath))

/-! ### Document Parser collaborator

The source delegates XML/HTML parsing to `DOMParser` and queries the result
with `querySelector`/`querySelectorAll`/`getAttribute`.  A parsed document
is modelled as its elements in document order; the selectors the source
uses (`tag`, `tag[attr="v"]`, `[class*="sub"]`) are modelled directly.
`querySelector` returns the first element in document order that matches —
descendant combinators such as `'spine itemref'` are modelled by the tag
of the selected element (`itemref` elements occur only inside `spine` in a
package document). -/

structure Elem where
  tag : String
  attrs : List (String × String)
  text : String
deriving DecidableEq

/-- `element.getAttribute(name)` (`none` models the JS `null`). -/
def getAttr (e : Elem) (name : String) : Option String :=
  (e.attrs.find? (fun a => a.1 = name)).map (fun a => a.2)

/-- The selector shapes used by the source. -/
inductive Sel where
  | tagSel (t : String)
  | tagAttr (t attrName attrVal : String)
  | classContains (sub : String)
deriving DecidableEq

/-- CSS matching for the modelled selector shapes. -/
def selMatch (e : Elem) : Sel → Bool
  | .tagSel t => e.tag = t
  | .tagAttr t n v => e.tag = t && getAttr e n = some v
  | .classContains sub =>
    match getAttr e "class" with
    | some cls => hasSubstr sub.data cls.data
    | none => false

/-- `doc.querySelector(sel)` — first match in document order. -/
def querySelector (doc : List Elem) (s : Sel) : Option Elem :=
  doc.find? (fun e => selMatch e s)

/-- `doc.querySelectorAll(sel)` — all matches in document order. -/
def querySelectorAll (doc : List Elem) (s : Sel) : List Elem :=
  doc.filter (fun e => selMatch e s)

/-! ### Archive Reader collaborator

`this.zip.file(path)` returns the entry stored at exactly `path`, or
`null`.  An entry carries the collaborator outputs the code reads from it:
  * `xml`   — the element list of the `'text/xml'` parse (container.xml,
              content.opf),
  * `nav`   — the outcome of the NCX XPath extraction in
              `parseNcx` (`EpubExtractor1.2.js` lines 129-170): for each
              `navMap/navPoint`, the text content of its `navLabel/text`
              node (`none` if the node is missing) and its `content@src`
              attribute (`none` if the node or the attribute is missing);
              `none` for the whole field models that parsing/evaluation
              threw (the `try`/`catch` case),
  * `html`  — the element list of the `'text/html'` parse (chapter
              documents),
  * `bytes` — `entry.async('arraybuffer')`. -/

structure RawNav where
  labelText : Option String
  src : Option String
deriving DecidableEq

structure Entry where
  xml : List Elem := []
  nav : Option (List RawNav) := some []
  html : List Elem := []
  bytes : List Nat := []
deriving DecidableEq

/-- An archive: named entries (the Archive Reader collaborator). -/
abbrev Archive := List (String × Entry)

/-- `this.zip.file(path)`. -/
def file (z : Archive) (p : String) : Option Entry :=
  (z.find? (fun q => q.1 = p)).map (fun q => q.2)

/-! ### Data model -/

/-- One spine-ordered chapter, as built by
`EpubExtractor1.2.js` `parseContentOpf` (lines 100-115):
`{ id: idRef, path: fullPath, src: src, title: placeholder }`.
`id` keeps the raw `idref` attribute value (`none` models JS `null`). -/
structure Chapter where
  id : Option String
  path : String
  src : String
  title : String
deriving DecidableEq

/-- The synthesized placeholder title `` `章节${index + 1}` `` for 0-based
index `i`. -/
def placeholder (i : Nat) : String :=
  "章节" ++ toString (i + 1)

/-- The extractor's mutable fields (`EpubExtractor1.2.js` constructor).
The JS field `initialized` is called `inited` here. -/
structure ExtractorState where
  contentOpfPath : Option String
  ncxPath : Option String
  chapters : List Chapter
  inited : Bool
deriving DecidableEq

/-- The state right after construction. -/
def initialState : ExtractorState :=
  { contentOpfPath := none, ncxPath := none, chapters := [], inited := false }

/-! ### Container Locator

`findContentOpf` (`EpubExtractor.js` lines 83-113, identical in
`EpubExtractor1.2.js` lines 64-78 and `part_000` `fO` lines 48-57):
if `META-INF/container.xml` exists and contains a `rootfile` element, the
method returns `rootfile.getAttribute('full-path')` — even when that
attribute is absent (JS `null`); the fallback probe runs only when the
container entry is missing or has no `rootfile` element. -/

/-- The conventional fallback locations, in probe order. -/
def fallbackPaths : List String :=
  ["OEBPS/content.opf", "content.opf", "EPUB/content.opf"]

/-- The fallback probe: first conventional path present in the archive. -/
def probeFallback (z : Archive) : Option String :=
  fallbackPaths.find? (fun p => (file z p).isSome)

/-- `EpubExtractor.findContentOpf`. -/
def findContentOpf (z : Archive) : Option String :=
  match file z "META-INF/container.xml" with
  | some c =>
    match querySelector c.xml (Sel.tagSel "rootfile") with
    | some r => getAttr r "full-path"
    | none => probeFallback z
  | none => probeFallback z

/-! ### Package Parser

`parseContentOpf` of `EpubExtractor1.2.js` (lines 80-116). -/

inductive InitErr where
  /-- `findContentOpf` yielded nothing (or an empty, hence falsy, path):
  `'未找到content.opf文件，可能不是有效的EPUB文件'`. -/
  | noOpf
  /-- the located package path has no archive entry: `'找不到content.opf文件'`. -/
  | opfEntryMissing
  /-- `resolvePath(opfDir, null)` — a manifest item without `href` makes
  `relativePath.startsWith` throw a `TypeError`. -/
  | hrefTypeError
deriving DecidableEq

/-- The package's containing directory:
`path.lastIndexOf('/') > -1 ? path.substring(0, lastIndexOf('/') + 1) : ''`. -/
def opfDir (p : String) : String :=
  ⟨((p.data.reverse).dropWhile (fun c => c ≠ '/')).reverse⟩

/-- `item[id="ncx"]` lookup and resolution of the navigation-document path. -/
def ncxPathOf (x : List Elem) (d : String) : Except InitErr (Option String) :=
  match querySelector x (Sel.tagAttr "item" "id" "ncx") with
  | none => .ok none
  | some it =>
    match getAttr it "href" with
    | none => .error .hrefTypeError
    | some h => .ok (some (resolvePath d h))

/-- The spine: `idref` attributes of all `spine itemref` elements, in
document order (`none` models a missing attribute). -/
def spineIdRefs (x : List Elem) : List (Option String) :=
  (querySelectorAll x (Sel.tagSel "itemref")).map (fun e => getAttr e "idref")

/-- Manifest lookup `x.querySelector(`item[id="${idRef}"]`)`; the JS
template literal renders a `null` idref as the string `"null"`. -/
def lookupItem (x : List Elem) (r : Option String) : Option Elem :=
  querySelector x (Sel.tagAttr "item" "id" (r.getD "null"))

/-- Build the chapter for one spine entry (`k` is the spine position):
no matching manifest item drops the entry, a matching item without `href`
throws. -/
def chapterOf (x : List Elem) (d : String) (k : Nat) (r : Option String) :
    Except InitErr (Option Chapter) :=
  match lookupItem x r with
  | none => .ok none
  | some item =>
    match getAttr item "href" with
    | none => .error .hrefTypeError
    | some h =>
      .ok (some { id := r, path := resolvePath d h, src := h, title := placeholder k })

/-- The spine fold of `parseContentOpf`: JS
`idRefs.map((idRef, index) => {...}).filter(Boolean)` — the placeholder
index is the SPINE position (counted before dropping entries). -/
def buildChaptersAux (x : List Elem) (d : String) :
    Nat → List (Option String) → Except InitErr (List Chapter)
  | _, [] => .ok []
  | k, r :: rs =>
    match chapterOf x d k r with
    | .error e => .error e
    | .ok none => buildChaptersAux x d (k + 1) rs
    | .ok (some c) =>
      match buildChaptersAux x d (k + 1) rs with
      | .error e => .error e
      | .ok rest => .ok (c :: rest)

/-- The chapter list produced from a package document. -/
def buildChapters (x : List Elem) (d : String) : Except InitErr (List Chapter) :=
  buildChaptersAux x d 0 (spineIdRefs x)

/-- `parseContentOpf` — locate the package entry, extract the
navigation-document path and the spine chapters. -/
def parseOpf (z : Archive) (opfPath : String) :
    Except InitErr (Option String × List Chapter) :=
  match file z opfPath with
  | none => .error .opfEntryMissing
  | some f =>
    let x := f.xml
    let d := opfDir opfPath
    match ncxPathOf x d with
    | .error e => .error e
    | .ok np =>
      match buildChapters x d with
      | .error e => .error e
      | .ok cs => .ok (np, cs)

/-! ### Navigation Resolver

`parseNcx` of `EpubExtractor1.2.js` (lines 121-185): extract
`(src, title)` pairs from the navigation points, skipping entries whose
label or referenced path is missing (or whose title/src is the empty,
hence falsy, string); then assign titles to chapters by matching the
chapter's stored raw href (`chapter.src`), not by position. -/

/-- The `navPoints` array:
`if (title && src) navPoints.push({ src, title })` where
`title = textNode ? textNode.textContent.replace(/\s+/g,' ').trim() : null`
and `src = contentNode ? contentNode.getAttribute('src') : null`. -/
def buildNavPoints (raw : List RawNav) : List (String × String) :=
  raw.filterMap (fun r =>
    match r.labelText, r.src with
    | some lt, some s =>
      let t := normalizeWs lt
      if t ≠ "" ∧ s ≠ "" then some (s, t) else none
    | _, _ => none)

/-- Title assignment for one chapter:
`const matchedNav = navPoints.find(nav => nav.src === chapter.src);
 if (matchedNav) chapter.title = matchedNav.title;`. -/
def applyNavOne (nps : List (String × String)) (ch : Chapter) : Chapter :=
  match nps.find? (fun nv => nv.1 = ch.src) with
  | some nv => { ch with title := nv.2 }
  | none => ch

/-- `this.chapters.forEach(...)` — path-keyed title assignment. -/
def applyNav (nps : List (String × String)) (cs : List Chapter) : List Chapter :=
  cs.map (applyNavOne nps)

/-- `parseNcx`: no-op when there is no navigation path, when the archive
has no entry at it (warning only), or when parsing throws (caught). -/
def parseNcx (z : Archive) (ncxPath : Option String) (cs : List Chapter) :
    List Chapter :=
  match ncxPath with
  | none => cs
  | some p =>
    match file z p with
    | none => cs
    | some e =>
      match e.nav with
      | none => cs
      | some raw => applyNav (buildNavPoints raw) cs

/-! ### Title Fallback Resolver

`extractTitleFromXhtml` of `EpubExtractor1.2.js` (lines 212-231) and the
selector loop inside `t()` of the condensed variant (`part_000`
lines 102-118).  Both try the same ordered selectors; the 1.2 variant
stops at the FIRST matching element and returns `null` when its normalized
text is too short, while the condensed loop falls through to the next
selector in that case. -/

/-- The ordered selector chain
`['h1', 'h2', '[class*="title"]', '[class*="Title"]', 'h3']`. -/
def titleSelectors : List Sel :=
  [Sel.tagSel "h1", Sel.tagSel "h2", Sel.classContains "title",
   Sel.classContains "Title", Sel.tagSel "h3"]

/-- The selector loop of `EpubExtractor1.2.js`:
`return text.length > 1 ? text : null;` — a match ends the loop even when
the text is rejected for length. -/
def extractLoop12 (doc : List Elem) : List Sel → Option String
  | [] => none
  | s :: rest =>
    match querySelector doc s with
    | some e =>
      let t := normalizeWs e.text
      if 1 < t.length then some t else none
    | none => extractLoop12 doc rest

/-- `EpubExtractor.extractTitleFromXhtml` (1.2 variant). -/
def extractTitleFromXhtml (doc : List Elem) : Option String :=
  extractLoop12 doc titleSelectors

/-- The selector loop of the condensed variant's `t()`:
`if (t.length >= L) { ch.t = t; break; }` with `L = 2` — a too-short match
does NOT break, so the loop falls through to the next selector. -/
def extractLoop000 (doc : List Elem) : List Sel → Option String
  | [] => none
  | s :: rest =>
    match querySelector doc s with
    | some e =>
      let t := normalizeWs e.text
      if 2 ≤ t.length then some t else extractLoop000 doc rest
    | none => extractLoop000 doc rest

/-- The acceptable text a single selector yields (normalized, length ≥ 2),
used to characterise the condensed loop. -/
def acceptable (doc : List Elem) (s : Sel) : Option String :=
  match querySelector doc s with
  | some e =>
    let t := normalizeWs e.text
    if 2 ≤ t.length then some t else none
  | none => none

/-- The first element matched by any selector of the chain, in chain
order, used to characterise the 1.2 loop. -/
def firstMatchElem (doc : List Elem) : List Sel → Option Elem
  | [] => none
  | s :: rest =>
    match querySelector doc s with
    | some e => some e
    | none => firstMatchElem doc rest

/-- One chapter of `preloadChapterTitles` (`EpubExtractor1.2.js`
lines 190-207): chapters whose title differs from the placeholder of their
POSITION IN THE CHAPTER LIST are skipped before any archive access; for
the rest the chapter document is loaded and the heuristic may retitle the
chapter (`zip.file(path)` being `null` makes `.async` throw, which the
`catch` swallows).  The returned flag records whether the document load
was attempted. -/
def fallbackChapter (z : Archive) (idx : Nat) (ch : Chapter) : Chapter × Bool :=
  if ch.title ≠ placeholder idx then (ch, false)
  else
    match file z ch.path with
    | none => (ch, true)
    | some e =>
      match extractTitleFromXhtml e.html with
      | some t => ({ ch with title := t }, true)
      | none => (ch, true)

/-- `this.chapters.map(async (chapter, index) => ...)` — the index is the
position in the chapter list. -/
def preloadAux (z : Archive) : Nat → List Chapter → List Chapter
  | _, [] => []
  | i, ch :: rest => (fallbackChapter z i ch).1 :: preloadAux z (i + 1) rest

/-- `preloadChapterTitles`. -/
def preload (z : Archive) (cs : List Chapter) : List Chapter :=
  preloadAux z 0 cs

/-! ### Extractor Facade

`init` of `EpubExtractor1.2.js` (lines 14-41) and the query API
(lines 255-285).  Methods are embedded in state-passing style; the query
methods contain no field assignment, so they return the state unchanged. -/

/-- `init()`: guard on `initialized`, locate the package (falsy result —
`null` or the empty string — is fatal), parse it, run the navigation
resolver and the title fallback, then mark initialized. -/
def runInit (z : Archive) (st : ExtractorState) : Except InitErr ExtractorState :=
  if st.inited then .ok st
  else
    match findContentOpf z with
    | none => .error .noOpf
    | some opf =>
      if opf = "" then .error .noOpf
      else
        match parseOpf z opf with
        | .error e => .error e
        | .ok (np, cs) =>
          .ok { contentOpfPath := some opf, ncxPath := np,
                chapters := preload z (parseNcx z np cs), inited := true }

inductive QErr where
  /-- `'请先调用init()方法初始化'` — precondition error. -/
  | notInit
  /-- `` `章节序号无效，有效范围是0到${...}` `` — bounds error. -/
  | badIndex
  /-- `` `找不到章节文件: ${chapter.path}` `` — not-found error. -/
  | fileNotFound
deriving DecidableEq

/-- The chapter-document result: a Blob with its declared media type. -/
structure Blob where
  data : List Nat
  type : String
deriving DecidableEq

/-- `getChapterCount` (1.2 variant, guarded). -/
def getChapterCount (st : ExtractorState) : Except QErr (Nat × ExtractorState) :=
  if st.inited = false then .error .notInit
  else .ok (st.chapters.length, st)

/-- `getChapterCount` of `EpubExtractor.js` (lines 189-191) and `part_001`
(lines 184-186): NO initialization guard — it just returns the current
chapter-list length. -/
def getChapterCountV1 (st : ExtractorState) : Nat :=
  st.chapters.length

/-- `getChapterTitles`. -/
def getChapterTitles (st : ExtractorState) :
    Except QErr (List String × ExtractorState) :=
  if st.inited = false then .error .notInit
  else .ok (st.chapters.map (fun ch => ch.title), st)

/-- `getChapterTitle(chapterIndex)`; the index is a JS number, modelled as
an integer so that the `chapterIndex < 0` guard is meaningful. -/
def getChapterTitle (st : ExtractorState) (i : Int) :
    Except QErr (String × ExtractorState) :=
  if st.inited = false then .error .notInit
  else if i < 0 then .error .badIndex
  else
    match st.chapters.get? i.toNat with
    | none => .error .badIndex
    | some ch => .ok (ch.title, st)

/-- `getChapterXhtml(chapterIndex)` (identical guards in
`EpubExtractor.js` lines 198-217 and `EpubExtractor1.2.js` lines 273-285):
precondition guard, bounds guard, then the archive entry at the chapter's
resolved path, returned as a Blob typed `application/xhtml+xml`; a missing
entry is the distinct not-found error. -/
def getChapterXhtml (z : Archive) (st : ExtractorState) (i : Int) :
    Except QErr (Blob × ExtractorState) :=
  if st.inited = false then .error .notInit
  else if i < 0 then .error .badIndex
  else
    match st.chapters.get? i.toNat with
    | none => .error .badIndex
    | some ch =>
      match file z ch.path with
      | none => .error .fileNotFound
      | some e => .ok ({ data := e.bytes, type := "application/xhtml+xml" }, st)

/-! ### Concrete inputs used by the individual results -/

/-- A one-chapter EPUB whose NCX labels the chapter literally `"章节1"` —
textually equal to the chapter's synthesized placeholder — while the
chapter document itself carries an `h1` heading `"Foo"`. -/
def zOverwrite : Archive :=
  [("META-INF/container.xml",
     { xml := [{ tag := "rootfile", attrs := [("full-path", "content.opf")], text := "" }] }),
   ("content.opf",
     { xml := [{ tag := "item", attrs := [("id", "ncx"), ("href", "toc.ncx")], text := "" },
               { tag := "item", attrs := [("id", "c1"), ("href", "ch1.xhtml")], text := "" },
               { tag := "itemref", attrs := [("idref", "c1")], text := "" }] }),
   ("toc.ncx",
     { nav := some [{ labelText := some "章节1", src := some "ch1.xhtml" }] }),
   ("ch1.xhtml",
     { html := [{ tag := "h1", attrs := [], text := "Foo" }] })]

/-- A chapter already carrying a non-placeholder title, and an archive
holding its (headingless) document. -/
def chNamed : Chapter :=
  { id := some "c1", path := "w.xhtml", src := "w.xhtml", title := "Named" }

def entryPlain : Entry := {}

def zPlain : Archive := [("w.xhtml", entryPlain)]

/-- A chapter still titled with its placeholder. -/
def chPlaceholder : Chapter :=
  { id := some "c1", path := "w.xhtml", src := "w.xhtml", title := placeholder 0 }

/-- A chapter document whose `h1` text is a single character (rejected for
length) and whose `h3` text would be acceptable. -/
def docShortH1 : List Elem :=
  [{ tag := "h1", attrs := [], text := "1" },
   { tag := "h3", attrs := [], text := "Hello" }]

/-- A package document with one resolvable spine entry and one dangling
`idref`. -/
def xOpfDangling : List Elem :=
  [{ tag := "item", attrs := [("id", "a"), ("href", "a.xhtml")], text := "" },
   { tag := "itemref", attrs := [("idref", "a")], text := "" },
   { tag := "itemref", attrs := [("idref", "ghost")], text := "" }]

/-- The chapter the resolvable spine entry of `xOpfDangling` produces. -/
def chDangling : Chapter :=
  { id := some "a", path := "a.xhtml", src := "a.xhtml", title := placeholder 0 }

/-- The chapter list `xOpfDangling` produces. -/
def csDangling : List Chapter := [chDangling]

/-- Navigation raw entries: one complete, one lacking its label. -/
def rawNavMixed : List RawNav :=
  [{ labelText := some " The  Intro " , src := some "a.xhtml" },
   { labelText := none, src := some "b.xhtml" }]

/-- A container descriptor whose `rootfile` element lacks the `full-path`
attribute, in an archive that does hold `OEBPS/content.opf`. -/
def zNoFullPath : Archive :=
  [("META-INF/container.xml",
     { xml := [{ tag := "rootfile", attrs := [], text := "" }] }),
   ("OEBPS/content.opf", {})]

/-- A container entry with a well-formed `rootfile` declaration. -/
def entryContainerOk : Entry :=
  { xml := [{ tag := "rootfile", attrs := [("full-path", "OEBPS/book.opf")], text := "" }] }

def elemRootfileOk : Elem :=
  { tag := "rootfile", attrs := [("full-path", "OEBPS/book.opf")], text := "" }

def zContainerOk : Archive := [("META-INF/container.xml", entryContainerOk)]

/-- An EPUB that declares a navigation document which is absent from the
archive; its only chapter document has no heading elements. -/
def zNavMissing : Archive :=
  [("META-INF/container.xml",
     { xml := [{ tag := "rootfile", attrs := [("full-path", "content.opf")], text := "" }] }),
   ("content.opf",
     { xml := [{ tag := "item", attrs := [("id", "ncx"), ("href", "toc.ncx")], text := "" },
               { tag := "item", attrs := [("id", "c1"), ("href", "ch1.xhtml")], text := "" },
               { tag := "itemref", attrs := [("idref", "c1")], text := "" }] }),
   ("ch1.xhtml", { html := [{ tag := "p", attrs := [], text := "body" }] })]

/-- The chapter list `zNavMissing`'s package produces. -/
def csNavMissing : List Chapter :=
  [{ id := some "c1", path := "ch1.xhtml", src := "ch1.xhtml", title := placeholder 0 }]

/-- A `Ready` state over one chapter, and the matching archive. -/
def chReady : Chapter :=
  { id := some "c1", path := "ch1.xhtml", src := "ch1.xhtml", title := "One" }

def entryBytes : Entry := { bytes := [104, 105] }

def zReady : Archive := [("ch1.xhtml", entryBytes)]

def stReady : ExtractorState :=
  { contentOpfPath := some "content.opf", ncxPath := none,
    chapters := [chReady], inited := true }

/-! ## Results -/

/-- C1 — The path resolver's fold behaves as specified in the
`resolvePath` implementations (the first three instances evaluate the
claim's own examples), but the condensed variant's `EpubExtractor.s`
violates it at the failing input: a `'..'` ref segment meeting an empty
base is appended as a literal segment instead of being a no-op, so
`s("", "../x")` is `"../x"` where the claim demands `"x"`. -/
theorem resolvePath_examples_and_sResolve_underflow :
    resolvePath "a/b/" "../c" = "a/c"
    ∧ resolvePath "" "../x" = "x"
    ∧ resolvePath "a" "" = "a"
    ∧ sResolve "" "../x" = "../x"
    ∧ ("../x" : String) ≠ "x" :=
  ⟨rfl, rfl, rfl, rfl, by decide⟩

theorem extractLoop000_eq_filterMap (doc : List Elem) :
    ∀ sels : List Sel,
      extractLoop000 doc sels = (sels.filterMap (acceptable doc)).head? := by
  intro sels
  induction sels with
  | nil => rfl
  | cons s rest ih =>
    cases hq : querySelector doc s with
    | none =>
      simp only [extractLoop000, acceptable, hq, List.filterMap_cons]
      exact ih
    | some e =>
      by_cases hl : 2 ≤ (normalizeWs e.text).length
      · simp only [extractLoop000, acceptable, hq, List.filterMap_cons, if_pos hl]
        rfl
      · simp only [extractLoop000, acceptable, hq, List.filterMap_cons, if_neg hl]
        exact ih

theorem extractLoop12_eq_firstMatch (doc : List Elem) :
    ∀ sels : List Sel,
      extractLoop12 doc sels =
        (match firstMatchElem doc sels with
         | none => none
         | some e =>
           if 1 < (normalizeWs e.text).length then some (normalizeWs e.text)
           else none) := by
  intro sels
  induction sels with
  | nil => rfl
  | cons s rest ih =>
    cases hq : querySelector doc s with
    | none =>
      simp only [extractLoop12, firstMatchElem, hq]
      exact ih
    | some e =>
      simp only [extractLoop12, firstMatchElem, hq]

/-- C3 (counterexample) — On a document whose `h1` text is the single
character `"1"` and whose `h3` text is `"Hello"`, the cited
`extractTitleFromXhtml` of the 1.2 variant returns nothing: the rejected
too-short `h1` match ENDS extraction instead of falling through, while
the condensed variant's loop does fall through and yields `"Hello"` as
the claim describes. -/
theorem extract_shortcircuit_counterexample :
    extractTitleFromXhtml docShortH1 = none
    ∧ extractLoop000 docShortH1 titleSelectors = some "Hello" :=
  ⟨rfl, rfl⟩

/-- C3 (amended) — Both heuristic extractors try the selector chain
`h1, h2, [class*="title"], [class*="Title"], h3` in that fixed order and
accept only normalized (whitespace-collapsed, trimmed) text of length at
least 2.  The condensed variant returns the text of the FIRST selector in
chain order yielding acceptable text (a too-short match falls through),
and nothing when no selector does; the 1.2 variant is decided entirely by
the first selector with any matching element — acceptable text is
returned, a too-short match ends extraction with no title.  A chapter
whose document yields no title keeps its current (placeholder) title. -/
theorem extract_title_heuristic_order (doc : List Elem) :
    extractLoop000 doc titleSelectors = (titleSelectors.filterMap (acceptable doc)).head?
    ∧ (∀ t, acceptable doc (Sel.tagSel "h1") = some t → 2 ≤ t.length)
    ∧ extractTitleFromXhtml doc =
        (match firstMatchElem doc titleSelectors with
         | none => none
         | some e =>
           if 1 < (normalizeWs e.text).length then some (normalizeWs e.text)
           else none)
    ∧ (∀ (z : Archive) (i : Nat) (ch : Chapter) (e : Entry),
        ch.title = placeholder i → file z ch.path = some e →
        extractTitleFromXhtml e.html = none →
        (fallbackChapter z i ch).1 = ch) := by
  refine ⟨extractLoop000_eq_filterMap doc titleSelectors, ?_,
    extractLoop12_eq_firstMatch doc titleSelectors, ?_⟩
  · intro t ht
    unfold acceptable at ht
    cases hq : querySelector doc (Sel.tagSel "h1") with
    | none => rw [hq] at ht; exact absurd ht (by simp)
    | some e =>
      rw [hq] at ht
      dsimp only at ht
      by_cases hl : 2 ≤ (normalizeWs e.text).length
      · rw [if_pos hl] at ht
        cases ht
        exact hl
      · rw [if_neg hl] at ht
        exact absurd ht (by simp)
  · intro z i ch e hph hfile hext
    unfold fallbackChapter
    rw [if_neg (by simp [hph]), hfile]
    dsimp only
    rw [hext]

/-- C3 (witness) — a placeholder-titled chapter whose (headingless)
document yields no title is left unchanged by the fallback tier. -/
theorem extract_title_heuristic_order_witness :
    (fallbackChapter zPlain 0 chPlaceholder).1 = chPlaceholder :=
  (extract_title_heuristic_order []).2.2.2 zPlain 0 chPlaceholder entryPlain rfl rfl rfl

theorem preloadAux_get? (z : Archive) :
    ∀ (cs : List Chapter) (k i : Nat),
      (preloadAux z k cs).get? i
        = (cs.get? i).map (fun ch => (fallbackChapter z (k + i) ch).1) := by
  intro cs
  induction cs with
  | nil => intro k i; rfl
  | cons ch rest ih =>
    intro k i
    cases i with
    | zero => rfl
    | succ j =>
      have harith : k + 1 + j = k + (j + 1) := by omega
      show (preloadAux z (k + 1) rest).get? j
        = (rest.get? j).map (fun ch => (fallbackChapter z (k + (j + 1)) ch).1)
      rw [ih (k + 1) j, harith]

theorem fallbackChapter_of_titled (z : Archive) (i : Nat) (ch : Chapter)
    (h : ch.title ≠ placeholder i) : fallbackChapter z i ch = (ch, false) := by
  unfold fallbackChapter
  rw [if_pos h]

theorem fallbackChapter_loads (z : Archive) (i : Nat) (ch : Chapter)
    (h : ch.title = placeholder i) : (fallbackChapter z i ch).2 = true := by
  unfold fallbackChapter
  rw [if_neg (fun hne => hne h)]
  split
  · rfl
  · split <;> rfl

/-- C2 (amended) — In the cited pipeline (1.2 and condensed variants) the
tiers are navigation match, then heuristic extraction, then placeholder
(there is no manifest-title tier in these variants), and tier precedence
is enforced by a VALUE check: the chapter at position `i` of the final
list is exactly the fallback step applied to the chapter at position `i`
after navigation resolution; that step leaves any chapter whose title
differs from the placeholder of its list position untouched without
attempting a document load, and attempts the load exactly when the title
equals that placeholder — so a navigation-assigned title survives the
later tier precisely when it is not textually identical to the
placeholder (the counterexample shows the identical case being
overwritten). -/
theorem title_fallback_value_gate (z : Archive) (np : Option String)
    (cs : List Chapter) (i : Nat) (ch : Chapter)
    (h : (parseNcx z np cs).get? i = some ch) :
    (preload z (parseNcx z np cs)).get? i = some (fallbackChapter z i ch).1
    ∧ (ch.title ≠ placeholder i → fallbackChapter z i ch = (ch, false))
    ∧ (ch.title = placeholder i → (fallbackChapter z i ch).2 = true) := by
  refine ⟨?_, fun hne => fallbackChapter_of_titled z i ch hne,
    fun he => fallbackChapter_loads z i ch he⟩
  unfold preload
  rw [preloadAux_get? z _ 0 i, h]
  simp [Nat.zero_add]

/-- C2 (counterexample) — A navigation entry whose label is literally
`"章节1"` matches the only chapter and the navigation tier assigns that
title; because the assigned title is textually equal to the chapter's
placeholder, the later heuristic tier still runs and overwrites it with
the document's `h1` text `"Foo"` — a later tier overwriting a title set
by an earlier tier. -/
theorem title_tier_overwrite_counterexample :
    (buildNavPoints [{ labelText := some "章节1", src := some "ch1.xhtml" }]).find?
        (fun nv => nv.1 = "ch1.xhtml") = some ("ch1.xhtml", "章节1")
    ∧ runInit zOverwrite initialState =
        .ok { contentOpfPath := some "content.opf", ncxPath := some "toc.ncx",
              chapters := [{ id := some "c1", path := "ch1.xhtml",
                             src := "ch1.xhtml", title := "Foo" }],
              inited := true }
    ∧ ("Foo" : String) ≠ "章节1"
    ∧ placeholder 0 = "章节1" :=
  ⟨rfl, rfl, by decide, rfl⟩

/-- C2 (witness) — a chapter already titled `"Named"` passes through the
fallback tier unchanged and without a document-load attempt. -/
theorem title_fallback_value_gate_witness :
    (preload zPlain (parseNcx zPlain none [chNamed])).get? 0
      = some (fallbackChapter zPlain 0 chNamed).1
    ∧ fallbackChapter zPlain 0 chNamed = (chNamed, false) :=
  have h := title_fallback_value_gate zPlain none [chNamed] 0 chNamed rfl
  ⟨h.1, h.2.1 (by decide)⟩

theorem chapterOf_ok_none (x : List Elem) (d : String) (k : Nat) (r : Option String)
    (h : chapterOf x d k r = .ok none) : lookupItem x r = none := by
  unfold chapterOf at h
  cases hl : lookupItem x r with
  | none => rfl
  | some it =>
    rw [hl] at h
    dsimp only at h
    cases ha : getAttr it "href" with
    | none => rw [ha] at h; exact absurd h (by simp)
    | some href => rw [ha] at h; exact absurd h (by simp)

theorem chapterOf_ok_some (x : List Elem) (d : String) (k : Nat) (r : Option String)
    (c : Chapter) (h : chapterOf x d k r = .ok (some c)) :
    (lookupItem x r).isSome = true ∧ c.id = r := by
  unfold chapterOf at h
  cases hl : lookupItem x r with
  | none => rw [hl] at h; exact absurd h (by simp)
  | some it =>
    rw [hl] at h
    dsimp only at h
    cases ha : getAttr it "href" with
    | none => rw [ha] at h; exact absurd h (by simp)
    | some href =>
      rw [ha] at h
      simp only [Except.ok.injEq, Option.some.injEq] at h
      subst h
      exact ⟨rfl, rfl⟩

theorem buildChaptersAux_sublist (x : List Elem) (d : String) :
    ∀ (refs : List (Option String)) (k : Nat) (cs : List Chapter),
      buildChaptersAux x d k refs = .ok cs →
      cs.map (fun c => c.id) = refs.filter (fun r => (lookupItem x r).isSome)
      ∧ cs.length + (refs.filter (fun r => !(lookupItem x r).isSome)).length
          = refs.length := by
  intro refs
  induction refs with
  | nil =>
    intro k cs h
    cases h
    exact ⟨rfl, rfl⟩
  | cons r rs ih =>
    intro k cs h
    unfold buildChaptersAux at h
    cases hc : chapterOf x d k r with
    | error e => rw [hc] at h; exact absurd h (by simp)
    | ok oc =>
      rw [hc] at h
      cases oc with
      | none =>
        have hl : lookupItem x r = none := chapterOf_ok_none x d k r hc
        obtain ⟨h1, h2⟩ := ih (k + 1) cs h
        refine ⟨?_, ?_⟩
        · rw [h1, List.filter_cons, if_neg (by simp [hl])]
        · rw [List.filter_cons, if_pos (by simp [hl])]
          simp only [List.length_cons]
          omega
      | some c =>
        cases hrest : buildChaptersAux x d (k + 1) rs with
        | error e => rw [hrest] at h; exact absurd h (by simp)
        | ok rest =>
          rw [hrest] at h
          simp only [Except.ok.injEq] at h
          subst h
          obtain ⟨hsome, hid⟩ := chapterOf_ok_some x d k r c hc
          obtain ⟨h1, h2⟩ := ih (k + 1) rest hrest
          refine ⟨?_, ?_⟩
          · rw [List.map_cons, h1, hid, List.filter_cons, if_pos (by simp [hsome])]
          · rw [List.filter_cons, if_neg (by simp [hsome])]
            simp only [List.length_cons]
            omega

theorem applyNavOne_preserves (nps : List (String × String)) (ch : Chapter) :
    (applyNavOne nps ch).id = ch.id
    ∧ (applyNavOne nps ch).path = ch.path
    ∧ (applyNavOne nps ch).src = ch.src := by
  unfold applyNavOne
  cases nps.find? (fun nv => nv.1 = ch.src) <;> exact ⟨rfl, rfl, rfl⟩

theorem fallbackChapter_preserves (z : Archive) (i : Nat) (ch : Chapter) :
    ((fallbackChapter z i ch).1).id = ch.id
    ∧ ((fallbackChapter z i ch).1).path = ch.path
    ∧ ((fallbackChapter z i ch).1).src = ch.src := by
  unfold fallbackChapter
  split
  · exact ⟨rfl, rfl, rfl⟩
  · split
    · exact ⟨rfl, rfl, rfl⟩
    · split <;> exact ⟨rfl, rfl, rfl⟩

theorem preloadAux_length (z : Archive) :
    ∀ (cs : List Chapter) (k : Nat), (preloadAux z k cs).length = cs.length := by
  intro cs
  induction cs with
  | nil => intro k; rfl
  | cons ch rest ih =>
    intro k
    simp only [preloadAux, List.length_cons, ih (k + 1)]

theorem preloadAux_map_id (z : Archive) :
    ∀ (cs : List Chapter) (k : Nat),
      (preloadAux z k cs).map (fun c => c.id) = cs.map (fun c => c.id) := by
  intro cs
  induction cs with
  | nil => intro k; rfl
  | cons ch rest ih =>
    intro k
    simp only [preloadAux, List.map_cons, ih (k + 1),
      (fallbackChapter_preserves z k ch).1]

theorem applyNav_map_id (nps : List (String × String)) :
    ∀ cs : List Chapter,
      (applyNav nps cs).map (fun c => c.id) = cs.map (fun c => c.id) := by
  intro cs
  induction cs with
  | nil => rfl
  | cons ch rest ih =>
    simp only [applyNav, List.map_cons, (applyNavOne_preserves nps ch).1] at *
    rw [ih]

theorem parseNcx_length (z : Archive) (np : Option String) (cs : List Chapter) :
    (parseNcx z np cs).length = cs.length := by
  unfold parseNcx
  split
  · rfl
  · split
    · rfl
    · split
      · rfl
      · simp [applyNav]

theorem parseNcx_map_id (z : Archive) (np : Option String) (cs : List Chapter) :
    (parseNcx z np cs).map (fun c => c.id) = cs.map (fun c => c.id) := by
  unfold parseNcx
  split
  · rfl
  · split
    · rfl
    · split
      · rfl
      · exact applyNav_map_id _ cs

/-- C4 — The chapter list is the order-preserving sublist of the spine:
its chapters' ids are exactly the spine `idref`s that resolve to a
manifest item, in spine order (so unresolvable entries are dropped with
no hole inserted), the chapter count equals the number of spine entries
minus the unresolvable ones, and the later pipeline stages (navigation
titles, heuristic fallback) change neither the count nor the ids, so the
same holds of the list `initialize()` ends with. -/
theorem spine_order_preserving_sublist (x : List Elem) (d : String) (cs : List Chapter)
    (h : buildChapters x d = .ok cs) :
    cs.map (fun c => c.id) = (spineIdRefs x).filter (fun r => (lookupItem x r).isSome)
    ∧ cs.length + ((spineIdRefs x).filter (fun r => !(lookupItem x r).isSome)).length
        = (spineIdRefs x).length
    ∧ (∀ (z : Archive) (np : Option String),
        (preload z (parseNcx z np cs)).length = cs.length
        ∧ (preload z (parseNcx z np cs)).map (fun c => c.id) = cs.map (fun c => c.id)) := by
  obtain ⟨h1, h2⟩ := buildChaptersAux_sublist x d (spineIdRefs x) 0 cs h
  refine ⟨h1, h2, fun z np => ⟨?_, ?_⟩⟩
  · rw [preload, preloadAux_length, parseNcx_length]
  · rw [preload, preloadAux_map_id, parseNcx_map_id]

/-- C4 (witness) — a spine with one resolvable and one dangling entry
yields exactly the one resolvable chapter, kept through the pipeline. -/
theorem spine_order_preserving_sublist_witness :
    csDangling.map (fun c => c.id)
      = (spineIdRefs xOpfDangling).filter (fun r => (lookupItem xOpfDangling r).isSome)
    ∧ (preload zPlain (parseNcx zPlain none csDangling)).length = csDangling.length :=
  have h := spine_order_preserving_sublist xOpfDangling "" csDangling rfl
  ⟨h.1, (h.2.2 zPlain none).1⟩

/-- C5 — Navigation titles are assigned by key lookup on the chapter's
stored raw manifest href, not by position: the chapter at position `i`
after navigation resolution is `applyNavOne` of the chapter at position
`i` before it (independent of every other chapter and of the number or
order of navigation entries); its title is that of the first navigation
entry whose referenced path equals the chapter's `src`, or the previous
title when no entry matches; a matching entry exists exactly when the
lookup succeeds; every map entry originates from a raw navigation point
with both a (non-empty) label and a (non-empty) referenced path — points
missing either are skipped; and navigation assignment never changes a
chapter's id, archive path or stored href. -/
theorem nav_title_key_lookup (raw : List RawNav) (cs : List Chapter) (i : Nat)
    (ch : Chapter) (h : cs.get? i = some ch) :
    (applyNav (buildNavPoints raw) cs).get? i
      = some (applyNavOne (buildNavPoints raw) ch)
    ∧ (applyNavOne (buildNavPoints raw) ch).title
        = (match (buildNavPoints raw).find? (fun nv => nv.1 = ch.src) with
           | some nv => nv.2
           | none => ch.title)
    ∧ (((buildNavPoints raw).find? (fun nv => nv.1 = ch.src)).isSome
        ↔ ∃ nv ∈ buildNavPoints raw, nv.1 = ch.src)
    ∧ (∀ s t, (s, t) ∈ buildNavPoints raw →
        ∃ r ∈ raw, r.labelText ≠ none ∧ r.src = some s ∧ s ≠ "" ∧ t ≠ "")
    ∧ (applyNavOne (buildNavPoints raw) ch).id = ch.id
    ∧ (applyNavOne (buildNavPoints raw) ch).path = ch.path
    ∧ (applyNavOne (buildNavPoints raw) ch).src = ch.src := by
  have hpres := applyNavOne_preserves (buildNavPoints raw) ch
  refine ⟨?_, ?_, ?_, ?_, hpres.1, hpres.2.1, hpres.2.2⟩
  · rw [applyNav, List.get?_map, h]
    rfl
  · unfold applyNavOne
    cases hf : (buildNavPoints raw).find? (fun nv => nv.1 = ch.src) <;> rfl
  · simpa using List.find?_isSome
  · intro s t hmem
    obtain ⟨r, hr, hfr⟩ := List.mem_filterMap.mp hmem
    refine ⟨r, hr, ?_⟩
    cases hlt : r.labelText with
    | none => rw [hlt] at hfr; exact absurd hfr (by simp)
    | some lt =>
      cases hsrc : r.src with
      | none => rw [hlt, hsrc] at hfr; exact absurd hfr (by simp)
      | some s0 =>
        rw [hlt, hsrc] at hfr
        dsimp only at hfr
        by_cases hc : normalizeWs lt ≠ "" ∧ s0 ≠ ""
        · rw [if_pos hc] at hfr
          simp only [Option.some.injEq, Prod.mk.injEq] at hfr
          obtain ⟨hs, ht⟩ := hfr
          subst hs
          subst ht
          exact ⟨by simp, rfl, hc.2, hc.1⟩
        · rw [if_neg hc] at hfr
          exact absurd hfr (by simp)

/-- C5 (witness) — the complete navigation point retitles the matching
chapter (with normalized label text), the label-less one assigns
nothing. -/
theorem nav_title_key_lookup_witness :
    (applyNav (buildNavPoints rawNavMixed) csDangling).get? 0
      = some (applyNavOne (buildNavPoints rawNavMixed) chDangling)
    ∧ (applyNavOne (buildNavPoints rawNavMixed) chDangling).title = "The Intro"
    ∧ (applyNavOne (buildNavPoints rawNavMixed) chDangling).src = chDangling.src :=
  have h := nav_title_key_lookup rawNavMixed csDangling 0 chDangling rfl
  ⟨h.1, h.2.1, h.2.2.2.2.2.2⟩

/-- C6 (counterexample) — An archive whose container descriptor holds a
`rootfile` element WITHOUT the `full-path` attribute, while
`OEBPS/content.opf` exists: the claim says the locator falls back to
probing and returns `"OEBPS/content.opf"`, but the code returns the
absent attribute (null) without probing, and initialization fails. -/
theorem container_locator_counterexample :
    (file zNoFullPath "OEBPS/content.opf").isSome = true
    ∧ findContentOpf zNoFullPath = none
    ∧ runInit zNoFullPath initialState = .error .noOpf :=
  ⟨rfl, rfl, rfl⟩

/-- C6 (amended) — When the container descriptor exists and holds a
`rootfile` element, the locator returns exactly that element's
`full-path` attribute value — the declared path when present, nothing
(locating fails) when the attribute is absent — and the fallback paths
are NOT probed in that case.  Only when the descriptor entry is missing,
or it has no `rootfile` element, does the locator probe
`OEBPS/content.opf`, `content.opf`, `EPUB/content.opf` in that order,
returning the first present in the archive; and when the locator yields
no path at all, initialization fails fatally. -/
theorem container_locator_behavior (z : Archive) :
    (∀ c r, file z "META-INF/container.xml" = some c →
        querySelector c.xml (Sel.tagSel "rootfile") = some r →
        findContentOpf z = getAttr r "full-path")
    ∧ (file z "META-INF/container.xml" = none →
        findContentOpf z = probeFallback z)
    ∧ (∀ c, file z "META-INF/container.xml" = some c →
        querySelector c.xml (Sel.tagSel "rootfile") = none →
        findContentOpf z = probeFallback z)
    ∧ (probeFallback z =
        if (file z "OEBPS/content.opf").isSome then some "OEBPS/content.opf"
        else if (file z "content.opf").isSome then some "content.opf"
        else if (file z "EPUB/content.opf").isSome then some "EPUB/content.opf"
        else none)
    ∧ (findContentOpf z = none → runInit z initialState = .error .noOpf) := by
  refine ⟨?_, ?_, ?_, ?_, ?_⟩
  · intro c r hc hr
    unfold findContentOpf
    rw [hc]
    dsimp only
    rw [hr]
  · intro hc
    unfold findContentOpf
    rw [hc]
  · intro c hc hr
    unfold findContentOpf
    rw [hc]
    dsimp only
    rw [hr]
  · unfold probeFallback fallbackPaths
    rw [List.find?]
    cases h1 : (file z "OEBPS/content.opf").isSome with
    | true => simp [h1]
    | false =>
      simp only [h1, if_false]
      rw [List.find?]
      cases h2 : (file z "content.opf").isSome with
      | true => simp [h2]
      | false =>
        simp only [h2, if_false]
        rw [List.find?]
        cases h3 : (file z "EPUB/content.opf").isSome with
        | true => simp [h3]
        | false => simp [h3]
  · intro hnone
    unfold runInit
    rw [if_neg (by simp [initialState]), hnone]

/-- C6 (witness) — a well-formed container declaration is returned
verbatim. -/
theorem container_locator_behavior_witness :
    findContentOpf zContainerOk = some "OEBPS/book.opf" :=
  (container_locator_behavior zContainerOk).1 entryContainerOk elemRootfileOk rfl rfl

/-- C7 — Navigation resolution never fails the pipeline: when the archive
has no entry at the navigation path, or the parse/XPath evaluation throws
(the caught case), `parseNcx` assigns no titles and returns the chapter
list unchanged; and whenever the stages before navigation succeed,
`initialize()` runs to completion regardless of the navigation outcome,
since `runInit` applies the total functions `parseNcx` and `preload` and
then reaches the initialized state. -/
theorem nav_resolution_never_fatal (z : Archive) (p : String) (cs : List Chapter) :
    (file z p = none → parseNcx z (some p) cs = cs)
    ∧ (∀ e, file z p = some e → e.nav = none → parseNcx z (some p) cs = cs)
    ∧ (∀ (opf : String) (np : Option String) (cs0 : List Chapter),
        findContentOpf z = some opf → opf ≠ "" →
        parseOpf z opf = .ok (np, cs0) →
        runInit z initialState =
          .ok { contentOpfPath := some opf, ncxPath := np,
                chapters := preload z (parseNcx z np cs0), inited := true }) := by
  refine ⟨?_, ?_, ?_⟩
  · intro hf
    unfold parseNcx
    dsimp only
    rw [hf]
  · intro e hf hn
    unfold parseNcx
    dsimp only
    rw [hf]
    dsimp only
    rw [hn]
  · intro opf np cs0 hfind hne hparse
    unfold runInit
    rw [if_neg (by simp [initialState]), hfind]
    dsimp only
    rw [if_neg hne, hparse]

/-- C7 (witness) — an EPUB declaring a navigation document that is absent
from the archive still initializes completely, its chapter untouched. -/
theorem nav_resolution_never_fatal_witness :
    parseNcx zNavMissing (some "toc.ncx") csNavMissing = csNavMissing
    ∧ runInit zNavMissing initialState =
        .ok { contentOpfPath := some "content.opf", ncxPath := some "toc.ncx",
              chapters := csNavMissing, inited := true } :=
  have h := nav_resolution_never_fatal zNavMissing "toc.ncx" csNavMissing
  ⟨h.1 rfl, h.2.2 "content.opf" (some "toc.ncx") csNavMissing rfl (by decide) rfl⟩

/-- C8 — In the `Ready` state, `getChapterXhtml i` signals the bounds
error exactly when `i` is outside `[0, chapterCount)` (in particular it
never returns a blob there); for an in-range index it signals the
distinct not-found error when the archive has no entry at that chapter's
resolved path, and otherwise returns the entry's bytes as a blob with
declared media type `application/xhtml+xml`; conversely the not-found
error occurs only for in-range indices. -/
theorem chapter_document_fetch (z : Archive) (st : ExtractorState) (i : Int)
    (hinit : st.inited = true) :
    (getChapterXhtml z st i = .error .badIndex
      ↔ i < 0 ∨ (st.chapters.length : Int) ≤ i)
    ∧ (∀ ch, 0 ≤ i → st.chapters.get? i.toNat = some ch →
        (file z ch.path = none → getChapterXhtml z st i = .error .fileNotFound)
        ∧ (∀ e, file z ch.path = some e →
            getChapterXhtml z st i
              = .ok ({ data := e.bytes, type := "application/xhtml+xml" }, st)))
    ∧ (getChapterXhtml z st i = .error .fileNotFound →
        0 ≤ i ∧ i < (st.chapters.length : Int)) := by
  unfold getChapterXhtml
  rw [hinit, if_neg (by simp)]
  by_cases hneg : i < 0
  · rw [if_pos hneg]
    refine ⟨⟨fun _ => Or.inl hneg, fun _ => rfl⟩, ?_, ?_⟩
    · intro ch hge _
      exact absurd hneg (by omega)
    · intro hcontr
      exact absurd hcontr (by simp)
  · rw [if_neg hneg]
    cases hg : st.chapters.get? i.toNat with
    | none =>
      have hlen : st.chapters.length ≤ i.toNat := List.get?_eq_none.mp hg
      have hI : (st.chapters.length : Int) ≤ i := by omega
      refine ⟨⟨fun _ => Or.inr hI, fun _ => rfl⟩, ?_, ?_⟩
      · intro ch _ hsome
        exact absurd hsome (by simp)
      · intro hcontr
        exact absurd hcontr (by simp)
    | some ch0 =>
      have hlt : i.toNat < st.chapters.length := by
        obtain ⟨hw, _⟩ := List.get?_eq_some.mp hg
        exact hw
      have hge : 0 ≤ i := by omega
      have hIlt : i < (st.chapters.length : Int) := by omega
      refine ⟨?_, ?_, fun _ => ⟨hge, hIlt⟩⟩
      · constructor
        · intro hbad
          dsimp only at hbad
          cases hf : file z ch0.path with
          | none => rw [hf] at hbad; exact absurd hbad (by simp)
          | some e => rw [hf] at hbad; exact absurd hbad (by simp)
        · intro hor
          rcases hor with h1 | h2 <;> omega
      · intro ch _ hsome
        injection hsome with hch
        subst hch
        constructor
        · intro hf
          dsimp only
          rw [hf]
        · intro e hf
          dsimp only
          rw [hf]

/-- C8 (witness) — fetching the single chapter of a ready extractor
returns its bytes typed `application/xhtml+xml`. -/
theorem chapter_document_fetch_witness :
    getChapterXhtml zReady stReady 0
      = .ok ({ data := [104, 105], type := "application/xhtml+xml" }, stReady) :=
  ((chapter_document_fetch zReady stReady 0 rfl).2.1 chReady (by decide) rfl).2
    entryBytes rfl

/-- C9 (counterexample) — `getChapterCount` of the original variant
(`EpubExtractor.js` lines 189-191) has no initialization guard: invoked
on a freshly constructed (uninitialized) extractor it returns the value
`0` instead of signalling the precondition error. -/
theorem chapterCount_unguarded_counterexample :
    initialState.inited = false ∧ getChapterCountV1 initialState = 0 :=
  ⟨rfl, rfl⟩

/-- C9 (amended) — In the 1.2 variant every chapter query —
`getChapterCount`, `getChapterTitles`, `getChapterTitle(i)`,
`getChapterXhtml(i)` — invoked before initialization has completed
signals the precondition error; in the original variant
`getChapterCount` lacks the guard and simply returns the current
chapter-list length (`0` before initialization) rather than erroring. -/
theorem queries_require_ready (st : ExtractorState) (z : Archive) (i : Int)
    (h : st.inited = false) :
    getChapterCount st = .error .notInit
    ∧ getChapterTitles st = .error .notInit
    ∧ getChapterTitle st i = .error .notInit
    ∧ getChapterXhtml z st i = .error .notInit
    ∧ getChapterCountV1 st = st.chapters.length := by
  unfold getChapterCount getChapterTitles getChapterTitle getChapterXhtml getChapterCountV1
  rw [h]
  exact ⟨rfl, rfl, rfl, rfl, rfl⟩

/-- C9 (witness) — on a freshly constructed extractor the 1.2 queries
signal the precondition error. -/
theorem queries_require_ready_witness :
    getChapterCount initialState = .error .notInit
    ∧ getChapterXhtml [] initialState 0 = .error .notInit :=
  have h := queries_require_ready initialState [] 0 rfl
  ⟨h.1, h.2.2.2.1⟩

/-- C10 — Once initialization has completed, the chapter list is never
modified again: `init()` on an already-initialized state is a no-op
returning the very same state without re-running any pipeline stage, and
every successful chapter query returns the state unchanged (the embedded
methods contain no field assignment), so neither the list's length or
order nor any chapter's fields can change. -/
theorem ready_state_immutable (z : Archive) (st : ExtractorState)
    (h : st.inited = true) :
    runInit z st = .ok st
    ∧ (∀ n st2, getChapterCount st = .ok (n, st2) → st2 = st)
    ∧ (∀ ts st2, getChapterTitles st = .ok (ts, st2) → st2 = st)
    ∧ (∀ i t st2, getChapterTitle st i = .ok (t, st2) → st2 = st)
    ∧ (∀ i b st2, getChapterXhtml z st i = .ok (b, st2) → st2 = st) := by
  refine ⟨?_, ?_, ?_, ?_, ?_⟩
  · unfold runInit
    rw [h]
    rfl
  · intro n st2 hq
    unfold getChapterCount at hq
    rw [h, if_neg (by simp)] at hq
    simp only [Except.ok.injEq, Prod.mk.injEq] at hq
    exact hq.2.symm
  · intro ts st2 hq
    unfold getChapterTitles at hq
    rw [h, if_neg (by simp)] at hq
    simp only [Except.ok.injEq, Prod.mk.injEq] at hq
    exact hq.2.symm
  · intro i t st2 hq
    unfold getChapterTitle at hq
    rw [h, if_neg (by simp)] at hq
    split at hq
    · exact absurd hq (by simp)
    · split at hq
      · exact absurd hq (by simp)
      · simp only [Except.ok.injEq, Prod.mk.injEq] at hq
        exact hq.2.symm
  · intro i b st2 hq
    unfold getChapterXhtml at hq
    rw [h, if_neg (by simp)] at hq
    split at hq
    · exact absurd hq (by simp)
    · split at hq
      · exact absurd hq (by simp)
      · split at hq
        · exact absurd hq (by simp)
        · simp only [Except.ok.injEq, Prod.mk.injEq] at hq
          exact hq.2.symm

/-- C10 (witness) — re-running `init()` on a ready extractor returns the
identical state. -/
theorem ready_state_immutable_witness :
    runInit zReady stReady = .ok stReady :=
  (ready_state_immutable zReady stReady rfl).1

end Epub




